import Mathlib

/-
Verification of the lisp-interpreter runtime (built-in function library of the
object package used by the VM path, the evaluator package's built-in table,
and the recursive-descent parser) against its specification.

Embedding conventions:
* Go `float64` values are embedded as `GoFloat`: an exact rational together
  with the three IEEE special values +Inf, -Inf and NaN.  Rounding of finite
  results and the negative-zero distinction are not modelled; every claim
  below only exercises values on which float64 arithmetic is exact.
* Go `int64` is embedded as `Int`; the only int64 operation used by the
  claims is `%`, whose Go semantics (truncated remainder, with
  MinInt64 % -1 = 0) coincide with `Int.tmod` at every in-range input.
* A Go built-in returns `Option Object`: `some o` embeds a normal return of
  the object `o`, `none` embeds a runtime panic (index out of range, slice
  bounds out of range, nil-interface method call) or a non-terminating loop.
* The one loop in the source that can fail to terminate (the repeated
  subtraction in the VM path's `rem`) is embedded with an explicit fuel
  parameter counting loop iterations; exhausted fuel yields `none`.
-/

set_option maxHeartbeats 1000000

namespace LispVer

/-- Go float64: exact finite rationals plus the IEEE special values.
Negative zero and rounding of finite operations are not modelled. -/
inductive GoFloat where
  | fin (q : ℚ)
  | inf
  | negInf
  | nan
deriving DecidableEq

namespace GoFloat

/-- float64 addition. -/
def fadd : GoFloat → GoFloat → GoFloat
  | nan, _ => nan
  | _, nan => nan
  | fin a, fin b => fin (a + b)
  | fin _, inf => inf
  | fin _, negInf => negInf
  | inf, fin _ => inf
  | negInf, fin _ => negInf
  | inf, inf => inf
  | negInf, negInf => negInf
  | inf, negInf => nan
  | negInf, inf => nan

/-- float64 subtraction. -/
def fsub : GoFloat → GoFloat → GoFloat
  | nan, _ => nan
  | _, nan => nan
  | fin a, fin b => fin (a - b)
  | fin _, inf => negInf
  | fin _, negInf => inf
  | inf, fin _ => inf
  | negInf, fin _ => negInf
  | inf, inf => nan
  | negInf, negInf => nan
  | inf, negInf => inf
  | negInf, inf => negInf

/-- float64 negation. -/
def fneg : GoFloat → GoFloat
  | nan => nan
  | fin a => fin (-a)
  | inf => negInf
  | negInf => inf

/-- float64 multiplication. -/
def fmul : GoFloat → GoFloat → GoFloat
  | nan, _ => nan
  | _, nan => nan
  | fin a, fin b => fin (a * b)
  | fin a, inf => if a = 0 then nan else if 0 < a then inf else negInf
  | fin a, negInf => if a = 0 then nan else if 0 < a then negInf else inf
  | inf, fin b => if b = 0 then nan else if 0 < b then inf else negInf
  | negInf, fin b => if b = 0 then nan else if 0 < b then negInf else inf
  | inf, inf => inf
  | negInf, negInf => inf
  | inf, negInf => negInf
  | negInf, inf => negInf

/-- float64 division.  Division of a nonzero finite value by (positive)
zero yields a signed infinity; 0/0 yields NaN. -/
def fdiv : GoFloat → GoFloat → GoFloat
  | nan, _ => nan
  | _, nan => nan
  | fin a, fin b =>
    if b = 0 then (if a = 0 then nan else if 0 < a then inf else negInf)
    else fin (a / b)
  | fin _, inf => fin 0
  | fin _, negInf => fin 0
  | inf, fin b => if b < 0 then negInf else inf
  | negInf, fin b => if b < 0 then inf else negInf
  | inf, inf => nan
  | negInf, negInf => nan
  | inf, negInf => nan
  | negInf, inf => nan

/-- The comparison `top >= bottom` on float64 (false whenever NaN is involved). -/
def fge : GoFloat → GoFloat → Bool
  | nan, _ => false
  | _, nan => false
  | fin a, fin b => decide (b ≤ a)
  | inf, _ => true
  | _, inf => false
  | negInf, negInf => true
  | fin _, negInf => true
  | negInf, fin _ => false

/-- The comparison `x == 0` on float64. -/
def beqZero : GoFloat → Bool
  | fin a => decide (a = 0)
  | _ => false

end GoFloat

/-- The tag returned by Object.Type() in the object package. -/
inductive ObjType where
  | NUMBER | INTEGER | FLOAT | STRING | BOOLEAN | NULL
  | LIST | DICT | LAMBDA | FUNCTION | ERROR
deriving DecidableEq

/-- Modelled from the spec: the HashKey type lives in object-package files
absent from src/.  Per the spec it is a stable digest of a Hashable object:
the canonicalized double for numbers, the content for strings, 0/1 for
booleans.  It is modelled as the tagged digested value itself. -/
inductive HashKey where
  | numKey (v : GoFloat)
  | strKey (s : String)
  | boolKey (b : Bool)
deriving DecidableEq

/-- The runtime Object sum type of the object package.  The VM numeric
variant is `number` (float64); the evaluator path additionally uses
`integer` (int64) and `float`.  A Dictionary's Go map is embedded as an
association list from HashKey to the stored DictPair (key, value); map
iteration order is not observable in any claim.  LambdaObject and
FunctionObject payloads (instructions, closures, implementations) are not
inspected by any claim and are represented by an identifier. -/
inductive Object where
  | number (v : GoFloat)
  | integer (v : ℤ)
  | float (v : GoFloat)
  | str (s : String)
  | boolean (b : Bool)
  | null
  | list (vs : List Object)
  | dict (items : List (HashKey × Object × Object))
  | lambda (id : ℕ)
  | builtinF (name : String)
  | error (msg : String)

/-- Object.Type(). -/
def Object.type : Object → ObjType
  | .number _ => .NUMBER
  | .integer _ => .INTEGER
  | .float _ => .FLOAT
  | .str _ => .STRING
  | .boolean _ => .BOOLEAN
  | .null => .NULL
  | .list _ => .LIST
  | .dict _ => .DICT
  | .lambda _ => .LAMBDA
  | .builtinF _ => .FUNCTION
  | .error _ => .ERROR

/-- The printed form of an ObjectType tag (used in error messages). -/
def reprObjType : ObjType → String
  | .NUMBER => "NUMBER" | .INTEGER => "INTEGER" | .FLOAT => "FLOAT"
  | .STRING => "STRING" | .BOOLEAN => "BOOLEAN" | .NULL => "NULL"
  | .LIST => "LIST" | .DICT => "DICT" | .LAMBDA => "LAMBDA"
  | .FUNCTION => "FUNCTION" | .ERROR => "ERROR"

/-- Whether an object is an ErrorObject. -/
def Object.isError : Object → Bool
  | .error _ => true
  | _ => false

/-- Modelled from the spec: the Hashable type assertion.  Per the spec,
Number, String and Boolean objects are Hashable; the evaluator path's
numeric variants digest as their double value.  `none` embeds a failed
assertion. -/
def hashKey : Object → Option HashKey
  | .number v => some (.numKey v)
  | .integer n => some (.numKey (.fin (n : ℚ)))
  | .float v => some (.numKey v)
  | .str s => some (.strKey s)
  | .boolean b => some (.boolKey b)
  | _ => none

/-- Modelled from the spec: BadTypeError lives in an object-package file
absent from src/; the spec says only that type mismatches produce Error
values with human-readable text.  The second argument (the offending
object) participates only in the message and is not otherwise inspected. -/
def BadTypeError (name : String) (_obj : Object) : Object :=
  .error (s!"unsupported type passed to {name}")

/-- Modelled from the spec: WrongNumOfArgsError, as BadTypeError. -/
def WrongNumOfArgsError (name expected : String) (got : ℕ) : Object :=
  .error (s!"{name} expected {expected} args, got {got}")

/-- Modelled from the spec: NoArgsError, as BadTypeError. -/
def NoArgsError (name : String) : Object :=
  .error (s!"{name} called with no arguments")

/-- Modelled from the spec: BadKeyError, raised for a non-Hashable
dictionary key. -/
def BadKeyError (_obj : Object) : Object :=
  .error "unusable as dict key"

/-! ## The object package: the built-in registry used by the VM path
(src/object/builtins.go).  Each entry of the `Builtins` slice is embedded
as a named definition; a Go type switch followed by a cast is embedded as
a direct match on the object constructor. -/

namespace Obj

open GoFloat

/-- The accumulation loop of the VM-path `+`: fold float64 addition from 0,
returning BadTypeError at the first non-Number argument. -/
def plusLoop (acc : GoFloat) : List Object → Option Object
  | [] => some (.number acc)
  | .number n :: rest => plusLoop (fadd acc n) rest
  | other :: _ => some (BadTypeError "+" other)

/-- The VM-path built-in `+`. -/
def plus (args : List Object) : Option Object :=
  plusLoop (fin 0) args

/-- The accumulation loop of the VM-path `*`: fold float64 multiplication
from 1 (the source's BadTypeError here names `+`, a cosmetic slip kept out
of the embedded message). -/
def timesLoop (acc : GoFloat) : List Object → Option Object
  | [] => some (.number acc)
  | .number n :: rest => timesLoop (fmul acc n) rest
  | other :: _ => some (BadTypeError "+" other)

/-- The VM-path built-in `*`. -/
def times (args : List Object) : Option Object :=
  timesLoop (fin 1) args

/-- The `nums` collection loop shared by the VM-path `-` and `/`: every
argument must be a Number; the first offender aborts with the given error. -/
def collectNums (mkErr : Object → Object) : List Object → Except Object (List GoFloat)
  | [] => .ok []
  | .number n :: rest => (collectNums mkErr rest).map (fun l => n :: l)
  | other :: _ => .error (mkErr other)

/-- The left fold `result -= num` of the n-ary VM-path `-`. -/
def subFold (acc : GoFloat) : List GoFloat → GoFloat
  | [] => acc
  | n :: rest => subFold (fsub acc n) rest

/-- The VM-path built-in `-` (the source's BadTypeError here also names `+`). -/
def minus (args : List Object) : Option Object :=
  match args with
  | [] => some (NoArgsError "-")
  | _ =>
    match collectNums (BadTypeError "+") args with
    | .error e => some e
    | .ok [] => some (NoArgsError "-")    -- unreachable: args is nonempty
    | .ok [n] => some (.number (fneg n))
    | .ok (n :: rest) => some (.number (subFold n rest))

/-- The left fold of the n-ary VM-path `/`: each divisor is tested against
zero before dividing; a zero divisor aborts with an Error value. -/
def divFold (acc : GoFloat) : List GoFloat → Object
  | [] => .number acc
  | n :: rest =>
    if beqZero n then .error "Attempted to divide by 0"
    else divFold (fdiv acc n) rest

/-- The VM-path built-in `/`.  Note: the unary (reciprocal) case computes
`1 / nums[0]` with no zero test, so a zero argument produces the float64
quotient +Inf, not an Error. -/
def div (args : List Object) : Option Object :=
  match args with
  | [] => some (NoArgsError "/")
  | _ =>
    match collectNums (BadTypeError "/") args with
    | .error e => some e
    | .ok [] => some (NoArgsError "/")    -- unreachable: args is nonempty
    | .ok [n] => some (.number (fdiv (fin 1) n))
    | .ok (n :: rest) => some (divFold n rest)

/-- The repeated-subtraction loop of the VM-path `rem`:
`for top >= bottom { top -= bottom }`.  The fuel counts subtraction steps;
`none` embeds fuel exhaustion (the loop does not terminate for a negative
`bottom` with `top >= bottom`). -/
def remLoop (bottom : GoFloat) : ℕ → GoFloat → Option GoFloat
  | 0, top => if fge top bottom then none else some top
  | n + 1, top => if fge top bottom then remLoop bottom n (fsub top bottom) else some top

/-- The VM-path built-in `rem`: arity check, two Number type checks, a
zero-divisor check, then the repeated-subtraction loop. -/
def rem (fuel : ℕ) (args : List Object) : Option Object :=
  match args with
  | [a, b] =>
    match a with
    | .number top =>
      match b with
      | .number bottom =>
        if beqZero bottom then some (.error "Attempted rem of 0")
        else (remLoop bottom fuel top).map Object.number
      | other => some (BadTypeError "rem" other)
    | other => some (BadTypeError "rem" other)
  | _ => some (WrongNumOfArgsError "rem" "2" args.length)

/-- The VM-path built-in `first`: one List argument; NULL on an empty list. -/
def first (args : List Object) : Option Object :=
  match args with
  | [.list vs] =>
    match vs with
    | [] => some .null
    | v :: _ => some v
  | [other] => some (BadTypeError "first" other)
  | _ => some (WrongNumOfArgsError "first" "1" args.length)

/-- The VM-path built-in `rest`: one List argument; NULL on an empty list. -/
def rest (args : List Object) : Option Object :=
  match args with
  | [.list vs] =>
    match vs with
    | [] => some .null
    | _ :: t => some (.list t)
  | [other] => some (BadTypeError "rest" other)
  | _ => some (WrongNumOfArgsError "rest" "1" args.length)

/-- The VM-path built-in `last`: one List argument; NULL on an empty list. -/
def last (args : List Object) : Option Object :=
  match args with
  | [.list vs] =>
    match vs.getLast? with
    | none => some .null
    | some v => some v
  | [other] => some (BadTypeError "last" other)
  | _ => some (WrongNumOfArgsError "last" "1" args.length)

/-- The VM-path built-in `len`: a List yields the Number of its elements, a
String the Number of its byte length (Go `len` on a string counts bytes). -/
def len (args : List Object) : Option Object :=
  match args with
  | [.list vs] => some (.number (fin (vs.length : ℚ)))
  | [.str s] => some (.number (fin (s.utf8ByteSize : ℚ)))
  | [other] => some (BadTypeError "len" other)
  | _ => some (WrongNumOfArgsError "len" "1" args.length)

/-- The VM-path built-in `push`: returns a fresh copy with the element
appended. -/
def push (args : List Object) : Option Object :=
  match args with
  | [.list vs, x] => some (.list (vs ++ [x]))
  | [_other, _] => some (.error "first argument to push should be list")
  | _ => some (WrongNumOfArgsError "push" "2" args.length)

/-- The VM-path built-in `list`: copies its argument sequence into a List. -/
def listB (args : List Object) : Option Object :=
  some (.list args)

end Obj

/-! ### Dictionary construction (identical bodies in src/object/builtins.go
`dict` and src/evaluator/builtins.go `dict`). -/

/-- Lookup in the embedded Go map `map[HashKey]DictPair`. -/
def lookupD (items : List (HashKey × Object × Object)) (h : HashKey) :
    Option (Object × Object) :=
  (items.find? (fun e => e.1 == h)).map (fun e => e.2)

/-- Go map assignment `items[h] = pair`, embedded extensionally (replace any
existing entry for `h`; entry order is not observable in any claim). -/
def insertD (items : List (HashKey × Object × Object)) (h : HashKey)
    (k v : Object) : List (HashKey × Object × Object) :=
  (h, k, v) :: items.filter (fun e => e.1 != h)

/-- The pairing loop `for i := 0; i < len(args)-1; i += 2`. -/
def pairsOf : List Object → List (Object × Object)
  | k :: v :: rest => (k, v) :: pairsOf rest
  | _ => []

/-- The dict-construction loop: each (key, value) pair is hashed and
assigned into the map; a non-Hashable key aborts with BadKeyError. -/
def buildDict (items : List (HashKey × Object × Object)) :
    List (Object × Object) → Object
  | [] => .dict items
  | (k, v) :: rest =>
    match hashKey k with
    | none => BadKeyError k
    | some h => buildDict (insertD items h k v) rest

/-- The built-in `dict` (same body on both execution paths): an odd number
of arguments is an arity Error; otherwise the pairs are assigned in order,
so a later pair overwrites an earlier one with the same HashKey. -/
def dictB (args : List Object) : Option Object :=
  if args.length % 2 ≠ 0 then
    some (WrongNumOfArgsError "dict" "even number" args.length)
  else
    some (buildDict [] (pairsOf args))

/-- The built-in `get` (same body on both execution paths).  The source
computes WrongNumOfArgsError on an arity mismatch and BadKeyError on a
non-Hashable key but never returns them (missing `return` statements): a
call with fewer than 2 arguments panics indexing args, a call with more
than 2 silently ignores the extras, and a non-Hashable key panics calling
HashKey() on a nil interface. -/
def getB (args : List Object) : Option Object :=
  match args with
  | dictObj :: keyObj :: _ =>
    match dictObj with
    | .dict items =>
      match hashKey keyObj with
      | none => none    -- nil Hashable: key.HashKey() panics
      | some h =>
        match lookupD items h with
        | none => some .null
        | some p => some p.2
    | other => some (.error s!"attempted to get from {reprObjType other.type} instead of dict")
  | _ => none           -- args[0] / args[1]: index out of range panic

/-- The built-in `set` (same body on both execution paths; the same missing
`return` statements as in `get`).  Returns the updated dictionary. -/
def setB (args : List Object) : Option Object :=
  match args with
  | dictObj :: keyObj :: value :: _ =>
    match dictObj with
    | .dict items =>
      match hashKey keyObj with
      | none => none    -- nil Hashable: key.HashKey() panics
      | some h => some (.dict (insertD items h keyObj value))
    | other => some (.error s!"attempted to get from {reprObjType other.type} instead of dict")
  | _ => none           -- args[0] / args[1] / args[2]: index out of range panic

namespace Obj

/-- The Name fields of the `Builtins` slice of src/object/builtins.go, in
registration order.  The slice pairs each name with the implementation
embedded above (`=`, `<`, `>`, `not`, `and`, `or`, `str` and `print` are
not exercised by any claim and only their names are needed here); note the
slice contains no `push!` and no `pop!` entry. -/
def BuiltinNames : List String :=
  ["+", "*", "-", "/", "rem", "=", "<", ">", "not", "and", "or",
   "list", "dict", "first", "rest", "last", "len", "push", "str", "print",
   "get", "set"]

/-- GetBuiltinByName of src/object/builtins.go: linear search of the
`Builtins` slice by Name; `none` embeds the nil result. -/
def GetBuiltinByName (name : String) : Option String :=
  BuiltinNames.find? (fun n => n == name)

/-- evalTruthy of src/object/builtins.go (the truthiness rule on the VM
path): a BooleanObject is its value, Null is false, everything else is
true. -/
def evalTruthy : Object → Bool
  | .boolean b => b
  | .null => false
  | _ => true

end Obj

/-! ## The evaluator package's built-in table (src/evaluator/builtins.go).
Every entry ignores its Environment parameter, which is therefore dropped
from the embedding. -/

namespace Ev

open GoFloat

/-- isInt of src/evaluator/builtins.go: `num == float64(int64(num))`.
A float64 is int-like iff it is a finite integral value (int64-range
overflow of the conversion is not modelled; no claim exercises it). -/
def goIsInt : GoFloat → Bool
  | fin q => q.den == 1
  | _ => false

/-- The Go conversion int64(num), exercised only under a goIsInt guard
(where it is exact truncation of an integral value). -/
def goTrunc : GoFloat → ℤ
  | fin q => q.num / (q.den : ℤ)
  | _ => 0

/-- The evaluator path's result wrapper: an int-like float64 result becomes
an Integer, anything else a Float. -/
def mkNum (g : GoFloat) : Object :=
  if goIsInt g then .integer (goTrunc g) else .float g

/-- The accumulation loop of the evaluator-path `+`: per-argument type
switch over Integer and Float, folding float64 addition from 0. -/
def plusLoop (acc : GoFloat) : List Object → Option Object
  | [] => some (mkNum acc)
  | .integer n :: rest => plusLoop (fadd acc (fin (n : ℚ))) rest
  | .float g :: rest => plusLoop (fadd acc g) rest
  | other :: _ => some (BadTypeError "+" other)

/-- The evaluator-path built-in `+`. -/
def plus (args : List Object) : Option Object :=
  plusLoop (fin 0) args

/-- The accumulation loop of the evaluator-path `*`. -/
def timesLoop (acc : GoFloat) : List Object → Option Object
  | [] => some (mkNum acc)
  | .integer n :: rest => timesLoop (fmul acc (fin (n : ℚ))) rest
  | .float g :: rest => timesLoop (fmul acc g) rest
  | other :: _ => some (BadTypeError "*" other)

/-- The evaluator-path built-in `*`. -/
def times (args : List Object) : Option Object :=
  timesLoop (fin 1) args

/-- The `nums` collection loop of the evaluator-path `-` and `/`: every
argument must be an Integer or a Float. -/
def collectNums (mkErr : Object → Object) : List Object → Except Object (List GoFloat)
  | [] => .ok []
  | .integer n :: rest => (collectNums mkErr rest).map (fun l => fin (n : ℚ) :: l)
  | .float g :: rest => (collectNums mkErr rest).map (fun l => g :: l)
  | other :: _ => .error (mkErr other)

/-- The evaluator-path built-in `-`. -/
def minus (args : List Object) : Option Object :=
  match args with
  | [] => some (NoArgsError "-")
  | _ =>
    match collectNums (BadTypeError "-") args with
    | .error e => some e
    | .ok [] => some (NoArgsError "-")    -- unreachable: args is nonempty
    | .ok [n] =>
      if goIsInt n then some (.integer (-(goTrunc n))) else some (.float (fneg n))
    | .ok (n :: rest) => some (mkNum (Obj.subFold n rest))

/-- The left fold of the n-ary evaluator-path `/`: a zero divisor aborts
with an Error value; the final result goes through the Integer/Float
wrapper. -/
def divFold (acc : GoFloat) : List GoFloat → Object
  | [] => mkNum acc
  | n :: rest =>
    if beqZero n then .error "Attempted to divide by 0"
    else divFold (fdiv acc n) rest

/-- The evaluator-path built-in `/`.  As on the VM path, the unary
(reciprocal) case computes `1 / nums[0]` with no zero test and wraps the
result directly as a Float. -/
def div (args : List Object) : Option Object :=
  match args with
  | [] => some (NoArgsError "/")
  | _ =>
    match collectNums (BadTypeError "/") args with
    | .error e => some e
    | .ok [] => some (NoArgsError "/")    -- unreachable: args is nonempty
    | .ok [n] => some (.float (fdiv (fin 1) n))
    | .ok (n :: rest) => some (divFold n rest)

/-- The evaluator-path built-in `rem`: both arguments must be Integers
(a Float argument is a type error; the source's BadTypeError here names
`/`); a zero divisor is an Error; otherwise Go's `%`, which is the
truncated remainder Int.tmod. -/
def rem (args : List Object) : Option Object :=
  match args with
  | [a, b] =>
    match a with
    | .integer x =>
      match b with
      | .integer y =>
        if y = 0 then some (.error "Attempted rem of 0")
        else some (.integer (Int.tmod x y))
      | other => some (BadTypeError "/" other)
    | other => some (BadTypeError "/" other)
  | _ => some (WrongNumOfArgsError "rem" "2" args.length)

/-- The evaluator-path built-in `first`: NOTE the source has no empty-list
check and evaluates `list.Values[0]`, which panics on an empty list. -/
def first (args : List Object) : Option Object :=
  match args with
  | [.list vs] =>
    match vs with
    | [] => none        -- index out of range panic
    | v :: _ => some v
  | [other] => some (BadTypeError "first" other)
  | _ => some (WrongNumOfArgsError "first" "1" args.length)

/-- The evaluator-path built-in `rest`: NOTE the source has no empty-list
check and evaluates `list.Values[1:]`, which panics on an empty list. -/
def rest (args : List Object) : Option Object :=
  match args with
  | [.list vs] =>
    match vs with
    | [] => none        -- slice bounds out of range panic
    | _ :: t => some (.list t)
  | [other] => some (BadTypeError "rest" other)
  | _ => some (WrongNumOfArgsError "rest" "1" args.length)

/-- The evaluator-path built-in `last`: NOTE the source has no empty-list
check and evaluates `list.Values[len-1]`, which panics on an empty list. -/
def last (args : List Object) : Option Object :=
  match args with
  | [.list vs] =>
    match vs.getLast? with
    | none => none      -- index out of range panic
    | some v => some v
  | [other] => some (BadTypeError "last" other)
  | _ => some (WrongNumOfArgsError "last" "1" args.length)

/-- The evaluator-path built-in `len`: NOTE the source accepts only a List
argument (a String is a type error) and returns an Integer. -/
def len (args : List Object) : Option Object :=
  match args with
  | [.list vs] => some (.integer (vs.length : ℤ))
  | [other] => some (BadTypeError "len" other)
  | _ => some (WrongNumOfArgsError "len" "1" args.length)

/-- The evaluator-path built-in `push!`: appends in place and returns the
same list. -/
def pushBang (args : List Object) : Option Object :=
  match args with
  | [.list vs, x] => some (.list (vs ++ [x]))
  | [_other, _] => some (.error "first argument to concat should be list")
  | _ => some (WrongNumOfArgsError "push" "2" args.length)

/-- The evaluator-path built-in `pop!`: popping an empty list is an Error;
otherwise the last element is removed in place and returned. -/
def popBang (args : List Object) : Option Object :=
  match args with
  | [.list vs] =>
    match vs.getLast? with
    | none => some (.error "attemped to pop from empty list")
    | some v => some v
  | [_other] => some (.error "argument to pop should be list")
  | _ => some (WrongNumOfArgsError "pop" "1" args.length)

/-- The keys of the evaluator package's `builtins` map, in source order.
Unlike the VM path's registry, it contains `push!` and `pop!`. -/
def builtinNames : List String :=
  ["+", "*", "-", "/", "rem", "=", "<", ">", "not", "and", "or",
   "list", "dict", "first", "rest", "last", "len", "push", "push!", "pop!",
   "str", "print", "get", "set"]

/-- evalTruthy of src/evaluator/builtins.go: the source compares against
the interned NULL and FALSE singletons by pointer; since Null and the two
booleans are process-wide singletons, this is the match on those two
values. -/
def evalTruthy : Object → Bool
  | .null => false
  | .boolean false => false
  | _ => true

end Ev

/-! ## The parser (token stream → AST).
The Lexer is embedded as the list of tokens it produces before EOF; an
exhausted list plays the role of the lexer's indefinitely repeated EOF
token.  The Parser's curToken is the head of the remaining list.  The Go
recursion has no fuel; the embedding threads an explicit fuel bounding the
recursion depth and loop iterations, and the theorems supply enough fuel
for it never to be exhausted. -/

namespace Par

/-- Token kinds. -/
inductive TokenType where
  | NUM | STRING | IDENT | LPAREN | RPAREN | LBRACE | RBRACE
  | QUOTE | ILLEGAL | EOF
deriving DecidableEq

/-- A token: kind plus source lexeme. -/
structure Token where
  type : TokenType
  literal : String
deriving DecidableEq

/-- The token the lexer yields forever at end of input. -/
def eofToken : Token := ⟨.EOF, ""⟩

/-- curToken of the parser: the head of the remaining stream. -/
def cur (ts : List Token) : Token := ts.headD eofToken

/-- AST expressions.  Go's ast.Expression values can be nil (parseExpression
returns nil on its error paths), so SExpression fields that receive such
results are Options. -/
inductive Expr where
  | floatLit (tok : Token) (value : ℚ)
  | strLit (tok : Token) (value : String)
  | ident (tok : Token)
  | sexp (fn : Option Expr) (args : List (Option Expr))

/-- Digit-run accumulator for the decimal value of a NUM literal. -/
def digitsVal (acc : ℕ) : List Char → Option ℕ
  | [] => some acc
  | c :: cs => if c.isDigit then digitsVal (10 * acc + (c.toNat - 48)) cs else none

/-- strconv.ParseFloat restricted to the lexer's NUM shape (a run of
digits optionally containing one dot), evaluated exactly into ℚ.
ParseFloat's wider syntax (signs, exponents, hex) and its range error on
literals beyond float64 never arise from the lexer's NUM tokens of
interest and are not modelled. -/
def goParseFloat (s : String) : Option ℚ :=
  let cs := s.data
  if cs.contains '.' then
    let intPart := cs.takeWhile (fun c => c != '.')
    match cs.dropWhile (fun c => c != '.') with
    | '.' :: frac =>
      if frac.contains '.' then none
      else if intPart.isEmpty && frac.isEmpty then none
      else do
        let i ← digitsVal 0 intPart
        let f ← digitsVal 0 frac
        pure ((i : ℚ) + (f : ℚ) / ((10 : ℚ) ^ frac.length))
    | _ => none
  else
    if cs.isEmpty then none
    else (digitsVal 0 cs).map (fun n => (n : ℚ))

/-- The result of one parseExpression call: the produced expression (none
embeds Go's nil), the remaining token stream, and the parser errors this
call appended. -/
abbrev ParseRes := Option Expr × List Token × List String

/-- The args-collection loop shared by parseSExpression (closing RPAREN),
parseDictLiteral (closing RBRACE) and parseQuoteExpression (closing
RPAREN): while the current token is not the closing delimiter, parse one
argument via `pe` (the parseExpression recursion, already instantiated at
its fuel); hitting EOF records a diagnostic and returns with the collected
arguments discarded (`none`), exactly as the source returns before
assigning Args. -/
def parseArgsLoop (pe : List Token → ParseRes) (msg : String)
    (closing : TokenType) :
    ℕ → List Token → Option (List (Option Expr)) × List Token × List String
  | 0, ts => (none, ts, ["parse fuel exhausted"])
  | m + 1, ts =>
    if (cur ts).type = closing then (some [], ts.tail, [])
    else if (cur ts).type = .EOF then (none, ts, [msg])
    else
      match pe ts with
      | (e, ts1, errs1) =>
        match parseArgsLoop pe msg closing m ts1 with
        | (none, ts2, errs2) => (none, ts2, errs1 ++ errs2)
        | (some es, ts2, errs2) => (some (e :: es), ts2, errs1 ++ errs2)

/-- parseSExpression, after its initial readToken consumed the LPAREN:
an immediate RPAREN yields the empty SExpression; otherwise the optional
fn expression is parsed, then either an immediate RPAREN closes the form
or the argument loop runs. -/
def parseSExpBody (pe : List Token → ParseRes)
    (loop : List Token → Option (List (Option Expr)) × List Token × List String)
    (ts : List Token) : ParseRes :=
  if (cur ts).type = .RPAREN then (some (.sexp none []), ts.tail, [])
  else
    match pe ts with
    | (fn, ts1, errs1) =>
      if (cur ts1).type = .RPAREN then (some (.sexp fn []), ts1.tail, errs1)
      else
        match loop ts1 with
        | (none, ts2, errs2) => (some (.sexp fn []), ts2, errs1 ++ errs2)
        | (some es, ts2, errs2) => (some (.sexp fn es), ts2, errs1 ++ errs2)

/-- parseDictLiteral, after its initial readToken consumed the LBRACE: the
fn is the synthesized identifier `dict`. -/
def parseDictBody
    (loop : List Token → Option (List (Option Expr)) × List Token × List String)
    (ts : List Token) : ParseRes :=
  let fn : Expr := .ident ⟨.IDENT, "dict"⟩
  if (cur ts).type = .RBRACE then (some (.sexp (some fn) []), ts.tail, [])
  else
    match loop ts with
    | (none, ts2, errs2) => (some (.sexp (some fn) []), ts2, errs2)
    | (some es, ts2, errs2) => (some (.sexp (some fn) es), ts2, errs2)

/-- parseQuoteExpression, after its initial readToken consumed the QUOTE:
the next token must be LPAREN (else a diagnostic and an empty SExpression
with no fn); the fn is the synthesized identifier `list`. -/
def parseQuoteBody
    (loop : List Token → Option (List (Option Expr)) × List Token × List String)
    (ts : List Token) : ParseRes :=
  if (cur ts).type ≠ .LPAREN then
    (some (.sexp none []), ts, ["quote not followed by ("])
  else
    let ts1 := ts.tail
    let fn : Expr := .ident ⟨.IDENT, "list"⟩
    if (cur ts1).type = .RPAREN then (some (.sexp (some fn) []), ts1.tail, [])
    else
      match loop ts1 with
      | (none, ts2, errs2) => (some (.sexp (some fn) []), ts2, errs2)
      | (some es, ts2, errs2) => (some (.sexp (some fn) es), ts2, errs2)

/-- parseExpression: dispatch on the current token's kind.  The fuel is
decremented on every recursive entry; the EOF case consumes nothing, the
ILLEGAL and unexpected-token cases record a diagnostic and consume one
token. -/
def parseExpr : ℕ → List Token → ParseRes
  | 0, ts => (none, ts, ["parse fuel exhausted"])
  | n + 1, ts =>
    let t := cur ts
    match t.type with
    | .NUM =>
      match goParseFloat t.literal with
      | some q => (some (.floatLit t q), ts.tail, [])
      | none => (none, ts.tail, [t.literal ++ " is invalid number"])
    | .STRING => (some (.strLit t t.literal), ts.tail, [])
    | .IDENT => (some (.ident t), ts.tail, [])
    | .LPAREN =>
      parseSExpBody (parseExpr n)
        (parseArgsLoop (parseExpr n) "Reached EOF before )" .RPAREN n) ts.tail
    | .LBRACE =>
      parseDictBody
        (parseArgsLoop (parseExpr n) "Reached EOF before closing brace" .RBRACE n) ts.tail
    | .QUOTE =>
      parseQuoteBody
        (parseArgsLoop (parseExpr n) "Reached EOF before )" .RPAREN n) ts.tail
    | .EOF => (none, ts, [])
    | .ILLEGAL => (none, ts.tail, [t.literal])
    | _ => (none, ts.tail, ["should not reach here"])

/-- The token sequences that form exactly one well-formed expression
(§4.2): a NUM whose literal ParseFloat accepts, a STRING, an IDENT, a
parenthesized form with optional fn and argument expressions, a brace
dict literal, or a quoted list.  These are the streams on which "the
expression" of the position guarantee is defined. -/
inductive ExprToks : List Token → Prop where
  | num (t : Token) : t.type = .NUM → (goParseFloat t.literal).isSome →
      ExprToks [t]
  | strT (t : Token) : t.type = .STRING → ExprToks [t]
  | idT (t : Token) : t.type = .IDENT → ExprToks [t]
  | sexpEmpty (l r : Token) : l.type = .LPAREN → r.type = .RPAREN →
      ExprToks [l, r]
  | sexpT (l r : Token) (fnToks : List Token) (ats : List (List Token)) :
      l.type = .LPAREN → r.type = .RPAREN →
      ExprToks fnToks → (∀ a ∈ ats, ExprToks a) →
      ExprToks (l :: (fnToks ++ ats.flatten ++ [r]))
  | dictT (l r : Token) (ats : List (List Token)) :
      l.type = .LBRACE → r.type = .RBRACE →
      (∀ a ∈ ats, ExprToks a) →
      ExprToks (l :: (ats.flatten ++ [r]))
  | quoteT (q l r : Token) (ats : List (List Token)) :
      q.type = .QUOTE → l.type = .LPAREN → r.type = .RPAREN →
      (∀ a ∈ ats, ExprToks a) →
      ExprToks (q :: l :: (ats.flatten ++ [r]))

end Par

/-! ## Path aliases: `dict`, `get` and `set` have textually identical bodies
in src/object/builtins.go (VM path) and src/evaluator/builtins.go
(evaluator path); each path's built-in is the shared embedding above. -/

namespace Obj

/-- The VM-path built-in `dict`. -/
def dictBI : List Object → Option Object := LispVer.dictB

/-- The VM-path built-in `get`. -/
def getBI : List Object → Option Object := LispVer.getB

/-- The VM-path built-in `set`. -/
def setBI : List Object → Option Object := LispVer.setB

end Obj

namespace Ev

/-- The evaluator-path built-in `dict`. -/
def dictBI : List Object → Option Object := LispVer.dictB

/-- The evaluator-path built-in `get`. -/
def getBI : List Object → Option Object := LispVer.getB

/-- The evaluator-path built-in `set`. -/
def setBI : List Object → Option Object := LispVer.setB

end Ev

/-! ## Claims -/

/-- C1: the spec says `first`, `rest` and `last` of an empty List are the
Null singleton on both execution paths.  The VM-path built-ins
(src/object/builtins.go) do return NULL, but the evaluator-path built-ins
(src/evaluator/builtins.go) have no empty-list check: they index
`Values[0]`, slice `Values[1:]` and index `Values[len-1]`, each of which
panics on an empty list (embedded as `none`). -/
theorem claim_C1 :
    Obj.first [.list []] = some .null ∧
    Obj.rest [.list []] = some .null ∧
    Obj.last [.list []] = some .null ∧
    Ev.first [.list []] = none ∧
    Ev.rest [.list []] = none ∧
    Ev.last [.list []] = none :=
  ⟨rfl, rfl, rfl, rfl, rfl, rfl⟩

/-- C4 counterexample: the claim asserts pop! exists on the VM path's
built-in registry, but the Builtins slice of src/object/builtins.go has no
pop! (nor push!) entry: GetBuiltinByName returns nil. -/
theorem claim_C4_cex :
    (Obj.GetBuiltinByName "pop!").isNone = true ∧
    (Obj.GetBuiltinByName "push!").isNone = true := by
  constructor <;> decide

/-- C4 amended: on the evaluator path, applying pop! to an empty List
returns an Error value; the VM path's built-in registry contains no pop!
entry at all (so pop! cannot be applied there), while the evaluator's
table does contain it. -/
theorem claim_C4 :
    Ev.popBang [.list []] = some (.error "attemped to pop from empty list") ∧
    Obj.GetBuiltinByName "pop!" = none ∧
    "pop!" ∈ Ev.builtinNames :=
  ⟨rfl, by decide, by decide⟩

/-- C6: the claim says arity mismatches and non-Hashable keys make `get`
and `set` return Error values on both paths.  In fact both sources compute
WrongNumOfArgsError / BadKeyError and discard them (missing `return`
statements): a call with too few arguments panics indexing args (`none`),
a call with extra arguments silently proceeds (here `(get {} "k" extra)`
returns NULL, not an Error), and a non-Hashable key panics calling
HashKey() on a nil interface (`none`).  `dict`, `get` and `set` share one
embedded body across the two paths (see the path aliases). -/
theorem claim_C6 :
    Obj.getBI [] = none ∧
    Obj.getBI [.dict [], .str "k", .str "extra"] = some .null ∧
    (Object.null).isError = false ∧
    Obj.getBI [.dict [], .list []] = none ∧
    Obj.setBI [.dict []] = none ∧
    Obj.setBI [.dict [], .list [], .null] = none ∧
    Ev.getBI [] = none ∧
    Ev.setBI [.dict [], .list [], .null] = none :=
  ⟨rfl, rfl, rfl, rfl, rfl, rfl, rfl, rfl⟩

/-- C7: on both execution paths the truthiness predicate classifies a value
as falsy exactly when it is Null or the boolean FALSE; every other value,
including the number 0 and the empty string, is truthy. -/
theorem claim_C7 (v : Object) :
    (Obj.evalTruthy v = false ↔ v = .null ∨ v = .boolean false) ∧
    (Ev.evalTruthy v = false ↔ v = .null ∨ v = .boolean false) := by
  constructor <;>
    (cases v with
     | boolean b => cases b <;> simp [Obj.evalTruthy, Ev.evalTruthy]
     | _ => simp [Obj.evalTruthy, Ev.evalTruthy])

/-- C8: `(+)` is the number 0, `(*)` is the number 1, and `(-)` and `(/)`
with zero arguments are Error values.  On the VM path the results are
Numbers; on the evaluator path the zero and one pass the int-likeness test
and come out as Integers. -/
theorem claim_C8 :
    Obj.plus [] = some (.number (.fin 0)) ∧
    Obj.times [] = some (.number (.fin 1)) ∧
    Obj.minus [] = some (NoArgsError "-") ∧
    Obj.div [] = some (NoArgsError "/") ∧
    Ev.plus [] = some (.integer 0) ∧
    Ev.times [] = some (.integer 1) ∧
    Ev.minus [] = some (NoArgsError "-") ∧
    Ev.div [] = some (NoArgsError "/") := by
  refine ⟨rfl, rfl, rfl, rfl, ?_, ?_, rfl, rfl⟩ <;>
    simp [Ev.plus, Ev.times, Ev.plusLoop, Ev.timesLoop, Ev.mkNum,
      Ev.goIsInt, Ev.goTrunc]

/-- C3 counterexample: the claim says a String argument to `len` yields its
length on both paths; on the evaluator path (src/evaluator/builtins.go)
`len` accepts only a List, so `(len "hello")` evaluates to an Error value,
not the Number 5. -/
theorem claim_C3_cex :
    Ev.len [.str "hello"] = some (BadTypeError "len" (.str "hello")) ∧
    (BadTypeError "len" (.str "hello")).isError = true :=
  ⟨rfl, rfl⟩

/-- C3 amended: on the VM path `len` of a List is the Number of its
elements and of a String the Number of its byte length, and `(len 1)` is
an Error; on the evaluator path `len` accepts only a List (yielding an
Integer) — a String argument yields an Error value, as does `(len 1)`. -/
theorem claim_C3 (vs : List Object) (s : String) :
    Obj.len [.list vs] = some (.number (.fin (vs.length : ℚ))) ∧
    Obj.len [.str s] = some (.number (.fin (s.utf8ByteSize : ℚ))) ∧
    Obj.len [.number (.fin 1)] = some (BadTypeError "len" (.number (.fin 1))) ∧
    Ev.len [.list vs] = some (.integer (vs.length : ℤ)) ∧
    Ev.len [.str s] = some (BadTypeError "len" (.str s)) ∧
    Ev.len [.integer 1] = some (BadTypeError "len" (.integer 1)) :=
  ⟨rfl, rfl, rfl, rfl, rfl, rfl⟩

/-- The VM-path nums collection succeeds on all-Number arguments. -/
lemma collectNums_map (mkErr : Object → Object) (gs : List GoFloat) :
    Obj.collectNums mkErr (gs.map .number) = .ok gs := by
  induction gs with
  | nil => rfl
  | cons g gs ih => simp [Obj.collectNums, ih, Except.map]

/-- The evaluator-path nums collection succeeds on all-Float arguments. -/
lemma collectNumsEv_map (mkErr : Object → Object) (gs : List GoFloat) :
    Ev.collectNums mkErr (gs.map .float) = .ok gs := by
  induction gs with
  | nil => rfl
  | cons g gs ih => simp [Ev.collectNums, ih, Except.map]

/-- The VM-path division fold aborts with the divide-by-zero Error as soon
as any divisor is zero. -/
lemma divFold_zero (gs : List GoFloat) (hz : GoFloat.fin 0 ∈ gs) :
    ∀ acc, Obj.divFold acc gs = .error "Attempted to divide by 0" := by
  induction gs with
  | nil => cases hz
  | cons g gs ih =>
    intro acc
    rcases List.mem_cons.mp hz with h | h
    · subst h; simp [Obj.divFold, GoFloat.beqZero]
    · by_cases hg : GoFloat.beqZero g = true
      · simp [Obj.divFold, hg]
      · simp [Obj.divFold, hg, ih h]

/-- The evaluator-path division fold does the same. -/
lemma divFoldEv_zero (gs : List GoFloat) (hz : GoFloat.fin 0 ∈ gs) :
    ∀ acc, Ev.divFold acc gs = .error "Attempted to divide by 0" := by
  induction gs with
  | nil => cases hz
  | cons g gs ih =>
    intro acc
    rcases List.mem_cons.mp hz with h | h
    · subst h; simp [Ev.divFold, GoFloat.beqZero]
    · by_cases hg : GoFloat.beqZero g = true
      · simp [Ev.divFold, hg]
      · simp [Ev.divFold, hg, ih h]

/-- C5 counterexample: the claim says the unary reciprocal of zero is an
Error; on both paths the source computes `1 / nums[0]` with no zero test,
and the float64 quotient 1/0 is +Inf — a Number/Float, not an Error. -/
theorem claim_C5_cex :
    Obj.div [.number (.fin 0)] = some (.number .inf) ∧
    (Object.number GoFloat.inf).isError = false ∧
    Ev.div [.float (.fin 0)] = some (.float .inf) ∧
    (Object.float GoFloat.inf).isError = false := by
  refine ⟨?_, rfl, ?_, rfl⟩ <;>
    norm_num [Obj.div, Ev.div, Obj.collectNums, Ev.collectNums, GoFloat.fdiv,
      Except.map]

/-- C5 amended: in the n-ary left-fold case a zero divisor (any argument
after the first) produces the divide-by-zero Error on both paths; in the
unary case a zero argument produces the IEEE quotient +Inf (a numeric
value, not an Error). -/
theorem claim_C5 (g0 : GoFloat) (gs : List GoFloat)
    (hz : GoFloat.fin 0 ∈ gs) :
    Obj.div (.number g0 :: gs.map .number) =
      some (.error "Attempted to divide by 0") ∧
    Ev.div (.float g0 :: gs.map .float) =
      some (.error "Attempted to divide by 0") ∧
    Obj.div [.number (.fin 0)] = some (.number .inf) ∧
    Ev.div [.float (.fin 0)] = some (.float .inf) := by
  obtain ⟨g, gs', rfl⟩ : ∃ g gs', gs = g :: gs' := by
    cases gs with
    | nil => cases hz
    | cons g gs' => exact ⟨g, gs', rfl⟩
  refine ⟨?_, ?_, ?_, ?_⟩
  · have hc := collectNums_map (BadTypeError "/") (g0 :: g :: gs')
    simp only [List.map] at hc ⊢
    simp [Obj.div, hc, divFold_zero _ hz]
  · have hc := collectNumsEv_map (BadTypeError "/") (g0 :: g :: gs')
    simp only [List.map] at hc ⊢
    simp [Ev.div, hc, divFoldEv_zero _ hz]
  · norm_num [Obj.div, Obj.collectNums, GoFloat.fdiv, Except.map]
  · norm_num [Ev.div, Ev.collectNums, GoFloat.fdiv, Except.map]

/-- C5 witness: `(/ 6 0)` on the VM path hits the n-ary zero-divisor case. -/
theorem claim_C5_witness :
    (GoFloat.fin 0 ∈ [GoFloat.fin 0]) ∧
    Obj.div [.number (.fin 6), .number (.fin 0)] =
      some (.error "Attempted to divide by 0") :=
  ⟨by decide, (claim_C5 (.fin 6) [.fin 0] (by decide)).1⟩

/-- C2 counterexample: on the VM path `rem` is the repeated-subtraction
loop `for top >= bottom { top -= bottom }`.  For the call `(rem -5 3)` the
loop guard is false immediately and the result is the Number -5 (with any
fuel, here 0), while the truncating remainder the claim mandates is
`Int.tmod (-5) 3 = -2`. -/
theorem claim_C2_cex :
    Obj.rem 0 [.number (.fin (-5)), .number (.fin 3)] =
      some (.number (.fin (-5))) ∧
    Int.tmod (-5) 3 = -2 ∧
    GoFloat.fin (-5) ≠ GoFloat.fin (-2) := by
  refine ⟨?_, by decide, by decide⟩
  norm_num [Obj.rem, Obj.remLoop, GoFloat.beqZero, GoFloat.fge]

/-- The repeated-subtraction loop computes the Nat remainder when the
dividend is a nonnegative integer, the divisor a positive integer, and the
fuel at least the dividend. -/
lemma remLoop_nat (b : ℕ) (hb : 0 < b) :
    ∀ fuel a : ℕ, a ≤ fuel →
      Obj.remLoop (.fin b) fuel (.fin a) = some (.fin (a % b : ℕ)) := by
  intro fuel
  induction fuel with
  | zero =>
    intro a ha
    have ha0 : a = 0 := Nat.le_zero.mp ha
    subst ha0
    have hq : ¬ ((b : ℚ) ≤ (0 : ℚ)) := by
      rw [not_le]
      exact_mod_cast hb
    simp [Obj.remLoop, GoFloat.fge, hq, Nat.zero_mod]
  | succ n ih =>
    intro a ha
    by_cases hba : b ≤ a
    · have hq : ((b : ℚ) ≤ ((a : ℕ) : ℚ)) := by exact_mod_cast hba
      have hsub : GoFloat.fsub (.fin a) (.fin b) = .fin ((a - b : ℕ) : ℚ) := by
        simp [GoFloat.fsub]
        push_cast [hba]
        ring
      have hstep :
          Obj.remLoop (.fin b) (n + 1) (.fin a)
            = Obj.remLoop (.fin b) n (.fin ((a - b : ℕ) : ℚ)) := by
        simp [Obj.remLoop, GoFloat.fge, hq, hsub]
      rw [hstep, ih (a - b) (by omega), ← Nat.mod_eq_sub_mod hba]
    · have hlt : a < b := by omega
      have hq : ¬ ((b : ℚ) ≤ (a : ℚ)) := by exact_mod_cast hba
      simp [Obj.remLoop, GoFloat.fge, hq, Nat.mod_eq_of_lt hlt]

/-- C2 amended: on the evaluator path `rem` requires two Integer arguments
(a Float is a type error) and computes the truncating remainder, with a
zero divisor an Error.  On the VM path the zero-divisor check holds, but
the result is the repeated-subtraction residue: it equals the truncating
remainder for a nonnegative dividend and positive divisor, and differs for
a negative dividend (see the counterexample). -/
theorem claim_C2 :
    (∀ a b : ℤ, Ev.rem [.integer a, .integer b] =
        some (if b = 0 then .error "Attempted rem of 0"
              else .integer (Int.tmod a b))) ∧
    (∀ t : GoFloat, ∀ fuel : ℕ,
        Obj.rem fuel [.number t, .number (.fin 0)] =
          some (.error "Attempted rem of 0")) ∧
    (∀ a b fuel : ℕ, 0 < b → a ≤ fuel →
        Obj.rem fuel [.number (.fin a), .number (.fin b)] =
          some (.number (.fin (a % b : ℕ)))) ∧
    (∀ (g : GoFloat) (b : Object), Ev.rem [.float g, b] =
        some (BadTypeError "/" (.float g))) := by
  refine ⟨?_, ?_, ?_, ?_⟩
  · intro a b
    by_cases hb : b = 0 <;> simp [Ev.rem, hb]
  · intro t fuel
    simp [Obj.rem, GoFloat.beqZero]
  · intro a b fuel hb hfuel
    have hbz : GoFloat.beqZero (.fin b) = false := by
      simp [GoFloat.beqZero]
      positivity
    simp [Obj.rem, hbz, remLoop_nat b hb fuel a hfuel]
  · intro g b
    simp [Ev.rem]

/-- C2 witness: `(rem 7 3)` on the VM path with fuel 7 yields 1, and the
hypotheses 0 < 3 and 7 ≤ 7 hold. -/
theorem claim_C2_witness :
    (0 < 3 ∧ 7 ≤ 7) ∧
    Obj.rem 7 [.number (.fin 7), .number (.fin 3)] =
      some (.number (.fin 1)) := by
  refine ⟨⟨by decide, by decide⟩, ?_⟩
  have h := claim_C2.2.2.1 7 3 7 (by decide) (by decide)
  norm_num at h
  exact h

/-- Assigning under a key makes lookup at that key return the new pair. -/
lemma lookupD_insertD_self (items : List (HashKey × Object × Object))
    (h : HashKey) (k v : Object) :
    lookupD (insertD items h k v) h = some (k, v) := by
  simp [lookupD, insertD, List.find?]

/-- Assigning under a different key leaves lookup unchanged. -/
lemma lookupD_insertD_ne (items : List (HashKey × Object × Object))
    (h h' : HashKey) (k v : Object) (hne : h' ≠ h) :
    lookupD (insertD items h' k v) h = lookupD items h := by
  have hbeq : (h' == h) = false := by
    simp [hne]
  simp only [lookupD, insertD, List.find?, hbeq]
  congr 1
  induction items with
  | nil => rfl
  | cons e rest ih =>
    by_cases he : e.1 = h
    · have h1 : (e.1 == h) = true := by simp [he]
      have h2 : (e.1 != h') = true := by
        simp [he]
        exact fun hc => hne hc.symm
      simp [List.filter, h2, List.find?, h1]
    · have h1 : (e.1 == h) = false := by simp [he]
      by_cases he' : e.1 = h'
      · have h2 : (e.1 != h') = false := by simp [he']
        simp [List.filter, h2, ih, List.find?, h1]
      · have h2 : (e.1 != h') = true := by simp [he']
        simp [List.filter, h2, List.find?, h1, ih]

/-- Processing pairs none of which hashes to `h` leaves lookup at `h`
unchanged and reaches the final Dictionary (all keys being Hashable). -/
lemma buildDict_preserve (h : HashKey) :
    ∀ (ps : List (Object × Object)) (acc : List (HashKey × Object × Object)),
      (∀ p ∈ ps, (hashKey p.1).isSome) →
      (∀ p ∈ ps, hashKey p.1 ≠ some h) →
      ∃ m, buildDict acc ps = .dict m ∧ lookupD m h = lookupD acc h := by
  intro ps
  induction ps with
  | nil => exact fun acc _ _ => ⟨acc, rfl, rfl⟩
  | cons p rest ih =>
    intro acc hhash hne
    obtain ⟨h', hh'⟩ := Option.isSome_iff_exists.mp (hhash p (by simp))
    have hne' : h' ≠ h := by
      intro hc
      exact hne p (by simp) (hc ▸ hh')
    obtain ⟨k, v⟩ := p
    obtain ⟨m, hm, hl⟩ :=
      ih (insertD acc h' k v)
        (fun q hq => hhash q (by simp [hq]))
        (fun q hq => hne q (by simp [hq]))
    refine ⟨m, ?_, ?_⟩
    · simpa [buildDict, hh'] using hm
    · rw [hl, lookupD_insertD_ne _ _ _ _ _ hne']

/-- The dict-construction loop maps a duplicated HashKey to the pair that
appears last among those hashing to it. -/
lemma buildDict_last_wins (h : HashKey) (k v : Object)
    (l₂ : List (Object × Object))
    (hk : hashKey k = some h)
    (h₂s : ∀ p ∈ l₂, (hashKey p.1).isSome)
    (h₂ : ∀ p ∈ l₂, hashKey p.1 ≠ some h) :
    ∀ (l₁ : List (Object × Object)) (acc : List (HashKey × Object × Object)),
      (∀ p ∈ l₁, (hashKey p.1).isSome) →
      ∃ m, buildDict acc (l₁ ++ (k, v) :: l₂) = .dict m ∧
        lookupD m h = some (k, v) := by
  intro l₁
  induction l₁ with
  | nil =>
    intro acc _
    obtain ⟨m, hm, hl⟩ := buildDict_preserve h l₂ (insertD acc h k v) h₂s h₂
    refine ⟨m, ?_, ?_⟩
    · simpa [buildDict, hk] using hm
    · rw [hl, lookupD_insertD_self]
  | cons p rest ih =>
    intro acc h₁s
    obtain ⟨h', hh'⟩ := Option.isSome_iff_exists.mp (h₁s p (by simp))
    obtain ⟨k₁, v₁⟩ := p
    obtain ⟨m, hm, hl⟩ :=
      ih (insertD acc h' k₁ v₁) (fun q hq => h₁s q (by simp [hq]))
    exact ⟨m, by simpa [buildDict, hh'] using hm, hl⟩

/-- C10: when `dict` receives an even number of arguments whose key
positions are all Hashable and two keys share a HashKey, the resulting
Dictionary associates that HashKey with the later (key, value) pair; the
body is shared verbatim by both execution paths (see the path aliases
Obj.dictBI and Ev.dictBI). -/
theorem claim_C10 (args : List Object) (l₁ l₂ : List (Object × Object))
    (k v : Object) (h : HashKey)
    (hsplit : pairsOf args = l₁ ++ (k, v) :: l₂)
    (heven : args.length % 2 = 0)
    (hhash : ∀ p ∈ pairsOf args, (hashKey p.1).isSome)
    (hk : hashKey k = some h)
    (hlast : ∀ p ∈ l₂, hashKey p.1 ≠ some h) :
    ∃ m, Obj.dictBI args = some (.dict m) ∧
      Ev.dictBI args = some (.dict m) ∧
      lookupD m h = some (k, v) := by
  have h₂s : ∀ p ∈ l₂, (hashKey p.1).isSome := by
    intro p hp
    exact hhash p (by simp [hsplit, hp])
  have h₁s : ∀ p ∈ l₁, (hashKey p.1).isSome := by
    intro p hp
    exact hhash p (by simp [hsplit, hp])
  obtain ⟨m, hm, hl⟩ := buildDict_last_wins h k v l₂ hk h₂s hlast l₁ [] h₁s
  refine ⟨m, ?_, ?_, hl⟩ <;>
    simp [Obj.dictBI, Ev.dictBI, dictB, heven, hsplit ▸ hm]

/-- C10 witness: `(dict "a" 1 "a" 2)` maps the HashKey of "a" to the later
pair ("a", 2). -/
theorem claim_C10_witness :
    (pairsOf [.str "a", .number (.fin 1), .str "a", .number (.fin 2)] =
      [(Object.str "a", Object.number (.fin 1))] ++
        (Object.str "a", Object.number (.fin 2)) :: []) ∧
    ∃ m, Obj.dictBI [.str "a", .number (.fin 1), .str "a", .number (.fin 2)] =
        some (.dict m) ∧
      Ev.dictBI [.str "a", .number (.fin 1), .str "a", .number (.fin 2)] =
        some (.dict m) ∧
      lookupD m (.strKey "a") = some (.str "a", .number (.fin 2)) := by
  refine ⟨rfl, ?_⟩
  exact claim_C10
    [.str "a", .number (.fin 1), .str "a", .number (.fin 2)]
    [(Object.str "a", Object.number (.fin 1))] []
    (.str "a") (.number (.fin 2)) (.strKey "a")
    rfl rfl
    (by rintro p hp; simp [pairsOf] at hp; rcases hp with rfl | rfl <;> rfl)
    rfl
    (by rintro p hp; cases hp)

/-! ## C9: the parser's position guarantee. -/

namespace Par

/-- A well-formed expression's token sequence is nonempty and starts with
one of the six expression-opening token kinds. -/
lemma exprToks_start {pre : List Token} (h : ExprToks pre) :
    ∃ t rest, pre = t :: rest ∧
      (t.type = .NUM ∨ t.type = .STRING ∨ t.type = .IDENT ∨
       t.type = .LPAREN ∨ t.type = .LBRACE ∨ t.type = .QUOTE) := by
  cases h with
  | num t h1 _ => exact ⟨t, _, rfl, Or.inl h1⟩
  | strT t h1 => exact ⟨t, _, rfl, Or.inr (Or.inl h1)⟩
  | idT t h1 => exact ⟨t, _, rfl, Or.inr (Or.inr (Or.inl h1))⟩
  | sexpEmpty l r h1 _ => exact ⟨l, _, rfl, Or.inr (Or.inr (Or.inr (Or.inl h1)))⟩
  | sexpT l r fnToks ats h1 _ _ _ =>
    exact ⟨l, _, rfl, Or.inr (Or.inr (Or.inr (Or.inl h1)))⟩
  | dictT l r ats h1 _ _ =>
    exact ⟨l, _, rfl, Or.inr (Or.inr (Or.inr (Or.inr (Or.inl h1))))⟩
  | quoteT q l r ats h1 _ _ _ =>
    exact ⟨q, _, rfl, Or.inr (Or.inr (Or.inr (Or.inr (Or.inr h1))))⟩

/-- A member of a list of lists is no longer than the flattening. -/
lemma length_le_flatten {α : Type} {a : List α} {l : List (List α)}
    (h : a ∈ l) : a.length ≤ l.flatten.length := by
  induction l with
  | nil => cases h
  | cons b rest ih =>
    rcases List.mem_cons.mp h with rfl | h
    · rw [List.flatten_cons, List.length_append]
      omega
    · have := ih h
      rw [List.flatten_cons, List.length_append]
      omega

/-- If every member is nonempty, a list of lists is no longer than its
flattening. -/
lemma count_le_flatten {α : Type} {l : List (List α)}
    (h : ∀ a ∈ l, a ≠ []) : l.length ≤ l.flatten.length := by
  induction l with
  | nil => simp
  | cons b rest ih =>
    have hb : b ≠ [] := h b (by simp)
    have hb1 : 1 ≤ b.length := by
      cases b with
      | nil => exact absurd rfl hb
      | cons x xs => simp
    have := ih (fun a ha => h a (by simp [ha]))
    simp only [List.flatten_cons, List.length_append, List.length_cons]
    omega

/-- The args-collection loop consumes exactly the concatenated argument
token sequences and the closing delimiter, provided the fuel exceeds the
number of arguments, each argument parses cleanly under `pe`, and each
argument starts with a token that is neither the closing delimiter nor
EOF. -/
lemma parseArgsLoop_good (pe : List Token → ParseRes) (msg : String)
    (closing : TokenType) :
    ∀ (ats : List (List Token)) (fuel : ℕ) (post : List Token)
      (closeTok : Token),
      closeTok.type = closing →
      (∀ a ∈ ats, ∀ post2, ∃ e, pe (a ++ post2) = (some e, post2, [])) →
      (∀ a ∈ ats, ∃ t rest, a = t :: rest ∧ t.type ≠ closing ∧ t.type ≠ .EOF) →
      ats.length < fuel →
      ∃ es, parseArgsLoop pe msg closing fuel (ats.flatten ++ closeTok :: post)
        = (some es, post, []) := by
  intro ats
  induction ats with
  | nil =>
    intro fuel post closeTok hct _ _ hfuel
    cases fuel with
    | zero => omega
    | succ m => exact ⟨[], by simp [parseArgsLoop, cur, hct]⟩
  | cons a rest ih =>
    intro fuel post closeTok hct hgood hstart hfuel
    cases fuel with
    | zero => omega
    | succ m =>
      obtain ⟨t, tr, ha, ht1, ht2⟩ := hstart a (by simp)
      subst ha
      obtain ⟨e, he⟩ := hgood (t :: tr) (by simp) (rest.flatten ++ closeTok :: post)
      obtain ⟨es, hes⟩ :=
        ih m post closeTok hct
          (fun x hx => hgood x (by simp [hx]))
          (fun x hx => hstart x (by simp [hx]))
          (by simp at hfuel ⊢; omega)
      refine ⟨some e :: es, ?_⟩
      simp only [List.flatten_cons, List.append_assoc, List.cons_append] at he ⊢
      simp [parseArgsLoop, cur, ht1, ht2, he, hes]

/-- An expression-opening token is not a closing delimiter and not EOF. -/
lemma opener_ne {t : Token}
    (h : t.type = .NUM ∨ t.type = .STRING ∨ t.type = .IDENT ∨
         t.type = .LPAREN ∨ t.type = .LBRACE ∨ t.type = .QUOTE) :
    t.type ≠ .RPAREN ∧ t.type ≠ .RBRACE ∧ t.type ≠ .EOF := by
  rcases h with h | h | h | h | h | h <;> simp [h]

/-- parseExpression consumes exactly the tokens of one well-formed
expression: on the stream `pre ++ post` with `pre` well-formed and fuel at
least `pre.length`, it yields an expression, leaves exactly `post` as the
remaining stream, and records no diagnostics. -/
lemma parseExpr_good {pre : List Token} (h : ExprToks pre) :
    ∀ fuel, pre.length ≤ fuel → ∀ post,
      ∃ e, parseExpr fuel (pre ++ post) = (some e, post, []) := by
  induction h with
  | num t h1 h2 =>
    intro fuel hfuel post
    cases fuel with
    | zero => simp at hfuel
    | succ n =>
      obtain ⟨q, hq⟩ := Option.isSome_iff_exists.mp h2
      exact ⟨.floatLit t q, by simp [parseExpr, cur, h1, hq]⟩
  | strT t h1 =>
    intro fuel hfuel post
    cases fuel with
    | zero => simp at hfuel
    | succ n => exact ⟨.strLit t t.literal, by simp [parseExpr, cur, h1]⟩
  | idT t h1 =>
    intro fuel hfuel post
    cases fuel with
    | zero => simp at hfuel
    | succ n => exact ⟨.ident t, by simp [parseExpr, cur, h1]⟩
  | sexpEmpty l r h1 h2 =>
    intro fuel hfuel post
    cases fuel with
    | zero => simp at hfuel
    | succ n =>
      exact ⟨.sexp none [], by simp [parseExpr, parseSExpBody, cur, h1, h2]⟩
  | sexpT l r fnToks ats h1 h2 hfn hats ihfn ihats =>
    intro fuel hfuel post
    cases fuel with
    | zero => simp at hfuel
    | succ n =>
      obtain ⟨t0, tr0, hfn0, hty0⟩ := exprToks_start hfn
      obtain ⟨hne0, _, _⟩ := opener_ne hty0
      have hlens : fnToks.length + ats.flatten.length + 2 ≤ n + 1 := by
        simp only [List.length_cons, List.length_append, List.length_nil] at hfuel
        omega
      have hfn1 : 1 ≤ fnToks.length := by rw [hfn0]; simp
      obtain ⟨efn, hefn⟩ := ihfn n (by omega) (ats.flatten ++ r :: post)
      cases ats with
      | nil =>
        refine ⟨.sexp (some efn) [], ?_⟩
        simp only [List.flatten_nil, List.nil_append] at hefn ⊢
        rw [hfn0] at hefn ⊢
        simp only [List.cons_append, List.append_assoc] at hefn ⊢
        simp [parseExpr, parseSExpBody, cur, h1, h2, hne0, hefn]
      | cons a arest =>
        obtain ⟨ta, tra, ha0, htya⟩ := exprToks_start (hats a (by simp))
        obtain ⟨hnea, _, _⟩ := opener_ne htya
        have hmemlen : ∀ x ∈ a :: arest, x.length ≤ (a :: arest).flatten.length :=
          fun x hx => length_le_flatten hx
        have hnonnil : ∀ x ∈ a :: arest, x ≠ [] := by
          intro x hx
          obtain ⟨tx, trx, hx0, _⟩ := exprToks_start (hats x hx)
          simp [hx0]
        have hcnt : (a :: arest).length ≤ (a :: arest).flatten.length :=
          count_le_flatten hnonnil
        obtain ⟨es, hes⟩ :=
          parseArgsLoop_good (parseExpr n) "Reached EOF before )" .RPAREN
            (a :: arest) n post r h2
            (fun x hx =>
              ihats x hx n (le_trans (hmemlen x hx) (by omega)))
            (fun x hx => by
              obtain ⟨tx, trx, hx0, htyx⟩ := exprToks_start (hats x hx)
              obtain ⟨hxne, _, hxeof⟩ := opener_ne htyx
              exact ⟨tx, trx, hx0, hxne, hxeof⟩)
            (by omega)
        refine ⟨.sexp (some efn) es, ?_⟩
        rw [hfn0] at hefn ⊢
        simp only [List.flatten_cons, List.append_assoc, List.cons_append] at hefn hes ⊢
        rw [ha0] at hefn hes ⊢
        simp only [List.cons_append, List.append_assoc] at hefn hes ⊢
        simp [parseExpr, parseSExpBody, cur, h1, hne0, hnea, hefn, hes]
  | dictT l r ats h1 h2 hats ihats =>
    intro fuel hfuel post
    cases fuel with
    | zero => simp at hfuel
    | succ n =>
      have hlens : ats.flatten.length + 2 ≤ n + 1 := by
        simp only [List.length_cons, List.length_append, List.length_nil] at hfuel
        omega
      cases ats with
      | nil =>
        exact ⟨.sexp (some (.ident ⟨.IDENT, "dict"⟩)) [],
          by simp [parseExpr, parseDictBody, cur, h1, h2]⟩
      | cons a arest =>
        obtain ⟨ta, tra, ha0, htya⟩ := exprToks_start (hats a (by simp))
        obtain ⟨_, hnea, _⟩ := opener_ne htya
        have hmemlen : ∀ x ∈ a :: arest, x.length ≤ (a :: arest).flatten.length :=
          fun x hx => length_le_flatten hx
        have hnonnil : ∀ x ∈ a :: arest, x ≠ [] := by
          intro x hx
          obtain ⟨tx, trx, hx0, _⟩ := exprToks_start (hats x hx)
          simp [hx0]
        have hcnt : (a :: arest).length ≤ (a :: arest).flatten.length :=
          count_le_flatten hnonnil
        have hflat1 : 1 ≤ (a :: arest).flatten.length := by
          have := hmemlen a (by simp)
          have : 1 ≤ a.length := by rw [ha0]; simp
          omega
        obtain ⟨es, hes⟩ :=
          parseArgsLoop_good (parseExpr n) "Reached EOF before closing brace"
            .RBRACE (a :: arest) n post r h2
            (fun x hx =>
              ihats x hx n (le_trans (hmemlen x hx) (by omega)))
            (fun x hx => by
              obtain ⟨tx, trx, hx0, htyx⟩ := exprToks_start (hats x hx)
              obtain ⟨_, hxne, hxeof⟩ := opener_ne htyx
              exact ⟨tx, trx, hx0, hxne, hxeof⟩)
            (by omega)
        refine ⟨.sexp (some (.ident ⟨.IDENT, "dict"⟩)) es, ?_⟩
        simp only [List.flatten_cons, List.append_assoc, List.cons_append] at hes ⊢
        rw [ha0] at hes ⊢
        simp only [List.cons_append, List.append_assoc] at hes ⊢
        simp [parseExpr, parseDictBody, cur, h1, hnea, hes]
  | quoteT q l r ats hq1 hl1 hr1 hats ihats =>
    intro fuel hfuel post
    cases fuel with
    | zero => simp at hfuel
    | succ n =>
      have hlens : ats.flatten.length + 3 ≤ n + 1 := by
        simp only [List.length_cons, List.length_append, List.length_nil] at hfuel
        omega
      cases ats with
      | nil =>
        exact ⟨.sexp (some (.ident ⟨.IDENT, "list"⟩)) [],
          by simp [parseExpr, parseQuoteBody, cur, hq1, hl1, hr1]⟩
      | cons a arest =>
        obtain ⟨ta, tra, ha0, htya⟩ := exprToks_start (hats a (by simp))
        obtain ⟨hnea, _, _⟩ := opener_ne htya
        have hmemlen : ∀ x ∈ a :: arest, x.length ≤ (a :: arest).flatten.length :=
          fun x hx => length_le_flatten hx
        have hnonnil : ∀ x ∈ a :: arest, x ≠ [] := by
          intro x hx
          obtain ⟨tx, trx, hx0, _⟩ := exprToks_start (hats x hx)
          simp [hx0]
        have hcnt : (a :: arest).length ≤ (a :: arest).flatten.length :=
          count_le_flatten hnonnil
        obtain ⟨es, hes⟩ :=
          parseArgsLoop_good (parseExpr n) "Reached EOF before )" .RPAREN
            (a :: arest) n post r hr1
            (fun x hx =>
              ihats x hx n (le_trans (hmemlen x hx) (by omega)))
            (fun x hx => by
              obtain ⟨tx, trx, hx0, htyx⟩ := exprToks_start (hats x hx)
              obtain ⟨hxne, _, hxeof⟩ := opener_ne htyx
              exact ⟨tx, trx, hx0, hxne, hxeof⟩)
            (by omega)
        refine ⟨.sexp (some (.ident ⟨.IDENT, "list"⟩)) es, ?_⟩
        simp only [List.flatten_cons, List.append_assoc, List.cons_append] at hes ⊢
        rw [ha0] at hes ⊢
        simp only [List.cons_append, List.append_assoc] at hes ⊢
        simp [parseExpr, parseQuoteBody, cur, hq1, hl1, hnea, hes]

end Par

/-- C9: after parseExpression parses one well-formed expression from the
front of the token stream, the parser's current token is the first token
beyond that expression — the call consumes exactly the expression's
tokens, closing delimiter included, leaving the rest of the stream — and
it records no diagnostics (fuel `pre.length` bounds the recursion depth,
which the Go parser does not need). -/
theorem claim_C9 (pre post : List Par.Token) (h : Par.ExprToks pre) :
    ∃ e, Par.parseExpr pre.length (pre ++ post) = (some e, post, []) :=
  Par.parseExpr_good h pre.length le_rfl post

/-- C9 witness: the stream `1 x` — parsing the expression `1` leaves the
stream at the IDENT token `x`. -/
theorem claim_C9_witness :
    Par.ExprToks [(⟨.NUM, "1"⟩ : Par.Token)] ∧
    ∃ e, Par.parseExpr 1
        ([(⟨.NUM, "1"⟩ : Par.Token)] ++ [(⟨.IDENT, "x"⟩ : Par.Token)]) =
      (some e, [(⟨.IDENT, "x"⟩ : Par.Token)], []) := by
  have h : Par.ExprToks [(⟨.NUM, "1"⟩ : Par.Token)] :=
    Par.ExprToks.num _ rfl (by decide)
  exact ⟨h, claim_C9 _ _ h⟩

end LispVer
